import Mathlib

/-!
Shallow embedding of the rocket flight simulators of this repository
(`simulator_v1.py`, `simulator_v2.py`, `simulator_v3.py`).

The three Python scripts are straight-line numeric loops over module-level
parameters.  The specification treats those parameters as configuration
inputs, so each variant is embedded as a family of pure functions over a
configuration structure whose fields are exactly the module-level constants
of the corresponding script.  Machine floats are modelled by elements of a
linear ordered field: the shared 1-D code (`simulator_v1.py`,
`simulator_v2.py`) only uses field operations and comparisons, so it is
stated generically (and is executable at `ℚ`); the rigid-body code
(`simulator_v3.py`) additionally uses `sqrt`, `sin`, `cos`, `pi` and
`arctan2`, so it is embedded over `ℝ`.

The unbounded `while h >= 0 or t == 0:` loops are embedded with an explicit
fuel argument: `runAuxV1 c fuel s` returns `some (trajectory, exitState)`
when the loop, started at state `s`, exits within `fuel` iterations, and
`none` when `fuel` iterations were not enough.  The fuel is an embedding
device for the unbounded Python loop, not a feature of the code: the scripts
themselves contain no iteration bound.  `trajectory` is the list of states
recorded at the top of each executed iteration (the Python
`time_list`/`height_list`/`velocity_list` appends), and `exitState` is the
state at which the loop condition first failed.
-/

namespace RocketSim

/-- Engine/vehicle parameters shared by all three scripts: the module-level
constants `initial_mass`, `propellant_mass`, `burn_time`, `thrust`. -/
structure EngineParams (K : Type) where
  initial_mass : K
  propellant_mass : K
  burn_time : K
  thrust : K
deriving DecidableEq

variable {K : Type} [LinearOrderedField K]

/-- Derived parameter `mass_flow_rate = propellant_mass / burn_time`. -/
def mass_flow_rate (e : EngineParams K) : K :=
  e.propellant_mass / e.burn_time

/-- Derived parameter `burnout_mass = initial_mass - propellant_mass`. -/
def burnout_mass (e : EngineParams K) : K :=
  e.initial_mass - e.propellant_mass

/-- The thrust/mass branch executed at the top of every loop iteration in all
three scripts:
`if t < burn_time: current_thrust = thrust; m = initial_mass - mass_flow_rate * t`
`else: current_thrust = 0; m = burnout_mass`. -/
def thrust_and_mass (e : EngineParams K) (t : K) : K × K :=
  if t < e.burn_time then (e.thrust, e.initial_mass - mass_flow_rate e * t)
  else (0, burnout_mass e)

/-- Configuration of `simulator_v1.py`: engine parameters plus `g` and `dt`. -/
structure ConfigV1 (K : Type) extends EngineParams K where
  g : K
  dt : K
deriving DecidableEq

/-- Mutable state of the v1 loop: time `t`, altitude `h`, velocity `v`. -/
structure StateV1 (K : Type) where
  t : K
  h : K
  v : K
deriving DecidableEq

/-- Net force of `simulator_v1.py`: `F_net = current_thrust - m * g`. -/
def FnetV1 (c : ConfigV1 K) (s : StateV1 K) : K :=
  (thrust_and_mass c.toEngineParams s.t).1 - (thrust_and_mass c.toEngineParams s.t).2 * c.g

/-- Acceleration of `simulator_v1.py`: `a = F_net / m`. -/
def accelV1 (c : ConfigV1 K) (s : StateV1 K) : K :=
  FnetV1 c s / (thrust_and_mass c.toEngineParams s.t).2

/-- One iteration body of the v1 loop (after the recording of the current
state): `v = v + a * dt`, then `h = h + v * dt` with the already updated
velocity, then `t = t + dt`. -/
def stepV1 (c : ConfigV1 K) (s : StateV1 K) : StateV1 K :=
  let vNew := s.v + accelV1 c s * c.dt
  ⟨s.t + c.dt, s.h + vNew * c.dt, vNew⟩

/-- Loop condition `while h >= 0 or t == 0` of `simulator_v1.py`. -/
def loopCondV1 (s : StateV1 K) : Prop :=
  0 ≤ s.h ∨ s.t = 0

instance (s : StateV1 K) : Decidable (loopCondV1 s) :=
  inferInstanceAs (Decidable (0 ≤ s.h ∨ s.t = 0))

/-- Initial state of `simulator_v1.py`: `t = 0.0; h = 0.0; v = 0.0`. -/
def initV1 : StateV1 K := ⟨0, 0, 0⟩

/-- The state after `n` iterations of the v1 loop body. -/
def iterV1 (c : ConfigV1 K) (n : ℕ) : StateV1 K :=
  (stepV1 c)^[n] initV1

/-- Fueled embedding of the v1 `while` loop started at state `s`; see the
header comment.  Each executed iteration first records the current state and
then runs `stepV1`. -/
def runAuxV1 (c : ConfigV1 K) : ℕ → StateV1 K → Option (List (StateV1 K) × StateV1 K)
  | 0, _ => none
  | n + 1, s =>
    if loopCondV1 s then (runAuxV1 c n (stepV1 c s)).map (fun p => (s :: p.1, p.2))
    else some ([], s)

/-- The v1 simulation run from the all-zero initial state. -/
def runV1 (c : ConfigV1 K) (fuel : ℕ) : Option (List (StateV1 K) × StateV1 K) :=
  runAuxV1 c fuel initV1

/-- The hardcoded engine parameters of `simulator_v1.py`:
`initial_mass = 0.095`, `propellant_mass = 0.024`, `burn_time = 1.9`,
`thrust = 5.0`. -/
def engV1 : EngineParams ℚ := ⟨19/200, 3/125, 19/10, 5⟩

/-- A configuration with zero thrust: the rocket never lifts off, the first
step drives the altitude negative and the loop exits at once. -/
def cfgDrop : ConfigV1 ℚ := ⟨⟨1, 0, 1, 0⟩, 10, 1⟩

/-- A pathological configuration with zero gravity and positive thrust: the
altitude never becomes negative and the loop never exits. -/
def cfgAscend : ConfigV1 ℚ := ⟨⟨1, 0, 1, 1⟩, 0, 1⟩

/-- A physically sensible configuration over `ℚ` with positive gravity,
positive step size and positive burnout mass. -/
def cfgLand : ConfigV1 ℚ := ⟨⟨1, 1/2, 1, 0⟩, 10, 1⟩

noncomputable section RealVariants

/-- Configuration of `simulator_v2.py`: engine parameters plus `g`, `rho`,
`rocket_diameter`, `C_d`, `dt`. -/
structure ConfigV2 extends EngineParams ℝ where
  g : ℝ
  rho : ℝ
  rocket_diameter : ℝ
  C_d : ℝ
  dt : ℝ

/-- Reference area of `simulator_v2.py`: `A = np.pi * (rocket_diameter / 2)**2`. -/
def refAreaV2 (c : ConfigV2) : ℝ :=
  Real.pi * (c.rocket_diameter / 2) ^ 2

/-- Embedding of `np.sign` on scalars. -/
def sgn (v : ℝ) : ℝ :=
  if 0 < v then 1 else if v < 0 then -1 else 0

/-- Drag magnitude of `simulator_v2.py`: `F_drag = 0.5 * rho * v**2 * C_d * A`. -/
def dragMagV2 (c : ConfigV2) (v : ℝ) : ℝ :=
  1 / 2 * c.rho * v ^ 2 * c.C_d * refAreaV2 c

/-- The signed drag contribution to the v2 net force: the code subtracts
`F_drag * np.sign(v)`, so the drag force added to the force balance is
`-(F_drag * np.sign(v))`. -/
def dragTermV2 (c : ConfigV2) (v : ℝ) : ℝ :=
  -(dragMagV2 c v * sgn v)

/-- Net force of `simulator_v2.py`:
`F_net = current_thrust - m * g - (F_drag * np.sign(v))`. -/
def FnetV2 (c : ConfigV2) (s : StateV1 ℝ) : ℝ :=
  (thrust_and_mass c.toEngineParams s.t).1 - (thrust_and_mass c.toEngineParams s.t).2 * c.g -
    dragMagV2 c s.v * sgn s.v

/-- Acceleration of `simulator_v2.py`: `a = F_net / m`. -/
def accelV2 (c : ConfigV2) (s : StateV1 ℝ) : ℝ :=
  FnetV2 c s / (thrust_and_mass c.toEngineParams s.t).2

/-- One iteration body of the v2 loop: `v = v + a * dt`, then `h = h + v * dt`
with the updated velocity, then `t = t + dt`. -/
def stepV2 (c : ConfigV2) (s : StateV1 ℝ) : StateV1 ℝ :=
  let vNew := s.v + accelV2 c s * c.dt
  ⟨s.t + c.dt, s.h + vNew * c.dt, vNew⟩

/-- Configuration of `simulator_v3.py`: engine parameters plus the rigid-body
module-level constants. -/
structure ConfigV3 extends EngineParams ℝ where
  g : ℝ
  rho : ℝ
  moment_of_inertia_I : ℝ
  cg_to_cp_distance : ℝ
  rocket_diameter : ℝ
  C_d : ℝ
  dt : ℝ
  initial_angle_deg : ℝ

/-- Reference area of `simulator_v3.py`: `A = np.pi * (rocket_diameter / 2)**2`. -/
def refAreaV3 (c : ConfigV3) : ℝ :=
  Real.pi * (c.rocket_diameter / 2) ^ 2

/-- Mutable state of the v3 loop: time, 2-D position, 2-D velocity, attitude
angle `theta` (rad) and angular velocity `omega` (rad/s). -/
structure StateV3 where
  t : ℝ
  x : ℝ
  y : ℝ
  vx : ℝ
  vy : ℝ
  theta : ℝ
  omega : ℝ

/-- Embedding of `np.arctan2 y x`: the angle of the point `(x, y)` measured
from the positive `x`-axis, with the quadrant chosen from the signs of both
arguments (and `atan2 0 0 = 0`, as in numpy). -/
def atan2 (y x : ℝ) : ℝ :=
  if 0 < x then Real.arctan (y / x)
  else if x < 0 then
    (if 0 ≤ y then Real.arctan (y / x) + Real.pi else Real.arctan (y / x) - Real.pi)
  else if 0 < y then Real.pi / 2
  else if y < 0 then -(Real.pi / 2)
  else 0

/-- Speed `v_mag = np.sqrt(vx**2 + vy**2)` of `simulator_v3.py`. -/
def speedOf (vx vy : ℝ) : ℝ :=
  Real.sqrt (vx ^ 2 + vy ^ 2)

/-- Drag magnitude of `simulator_v3.py`: `F_drag = 0.5 * rho * v_mag**2 * C_d * A`. -/
def dragMagV3 (c : ConfigV3) (vx vy : ℝ) : ℝ :=
  1 / 2 * c.rho * speedOf vx vy ^ 2 * c.C_d * refAreaV3 c

/-- Drag force vector of `simulator_v3.py`: `(0, 0)` unless `v_mag > 1e-6`,
otherwise `-F_drag` times the unit vector along the velocity. -/
def dragForceV3 (c : ConfigV3) (vx vy : ℝ) : ℝ × ℝ :=
  if 1 / 1000000 < speedOf vx vy then
    (-dragMagV3 c vx vy * (vx / speedOf vx vy), -dragMagV3 c vx vy * (vy / speedOf vx vy))
  else (0, 0)

/-- Velocity-vector angle from vertical: `velocity_angle = np.arctan2(vx, vy)`. -/
def velocity_angle (vx vy : ℝ) : ℝ :=
  atan2 vx vy

/-- Angle of attack: `alpha = theta - velocity_angle`. -/
def angleOfAttack (theta vx vy : ℝ) : ℝ :=
  theta - velocity_angle vx vy

/-- Restoring torque of `simulator_v3.py`:
`torque = -F_drag * cg_to_cp_distance * np.sin(alpha)`. -/
def torqueV3 (c : ConfigV3) (theta vx vy : ℝ) : ℝ :=
  -dragMagV3 c vx vy * c.cg_to_cp_distance * Real.sin (angleOfAttack theta vx vy)

/-- Thrust components resolved along the body axis:
`Tx = current_thrust * np.sin(theta)`. -/
def TxV3 (c : ConfigV3) (s : StateV3) : ℝ :=
  (thrust_and_mass c.toEngineParams s.t).1 * Real.sin s.theta

/-- Vertical thrust component `Ty = current_thrust * np.cos(theta)`. -/
def TyV3 (c : ConfigV3) (s : StateV3) : ℝ :=
  (thrust_and_mass c.toEngineParams s.t).1 * Real.cos s.theta

/-- Gravity `Fg_y = -m * g` of `simulator_v3.py`. -/
def FgyV3 (c : ConfigV3) (s : StateV3) : ℝ :=
  -((thrust_and_mass c.toEngineParams s.t).2 * c.g)

/-- Net horizontal force `F_net_x = Tx + drag_Fx`. -/
def FnetXV3 (c : ConfigV3) (s : StateV3) : ℝ :=
  TxV3 c s + (dragForceV3 c s.vx s.vy).1

/-- Net vertical force `F_net_y = Ty + Fg_y + drag_Fy`. -/
def FnetYV3 (c : ConfigV3) (s : StateV3) : ℝ :=
  TyV3 c s + FgyV3 c s + (dragForceV3 c s.vx s.vy).2

/-- Horizontal acceleration `ax = F_net_x / m`. -/
def axV3 (c : ConfigV3) (s : StateV3) : ℝ :=
  FnetXV3 c s / (thrust_and_mass c.toEngineParams s.t).2

/-- Vertical acceleration `ay = F_net_y / m`. -/
def ayV3 (c : ConfigV3) (s : StateV3) : ℝ :=
  FnetYV3 c s / (thrust_and_mass c.toEngineParams s.t).2

/-- Angular acceleration `alpha_ang = torque / moment_of_inertia_I`. -/
def angAccV3 (c : ConfigV3) (s : StateV3) : ℝ :=
  torqueV3 c s.theta s.vx s.vy / c.moment_of_inertia_I

/-- One iteration body of the v3 loop: velocities and angular velocity are
updated first, then position and attitude are updated with the already
updated values, then `t` advances. -/
def stepV3 (c : ConfigV3) (s : StateV3) : StateV3 :=
  let vxNew := s.vx + axV3 c s * c.dt
  let vyNew := s.vy + ayV3 c s * c.dt
  let omegaNew := s.omega + angAccV3 c s * c.dt
  ⟨s.t + c.dt, s.x + vxNew * c.dt, s.y + vyNew * c.dt, vxNew, vyNew,
    s.theta + omegaNew * c.dt, omegaNew⟩

/-- Initial attitude angle `theta = np.radians(initial_angle_deg)`. -/
def theta0 (c : ConfigV3) : ℝ :=
  c.initial_angle_deg * Real.pi / 180

/-- Initial state of `simulator_v3.py`: everything zero except the attitude. -/
def initV3 (c : ConfigV3) : StateV3 :=
  ⟨0, 0, 0, 0, 0, theta0 c, 0⟩

/-- Loop condition `while y >= 0 or t == 0` of `simulator_v3.py`. -/
def loopCondV3 (s : StateV3) : Prop :=
  0 ≤ s.y ∨ s.t = 0

instance (s : StateV3) : Decidable (loopCondV3 s) :=
  inferInstanceAs (Decidable (0 ≤ s.y ∨ s.t = 0))

/-- The state after `n` iterations of the v3 loop body. -/
def iterV3 (c : ConfigV3) (n : ℕ) : StateV3 :=
  (stepV3 c)^[n] (initV3 c)

/-- Fueled embedding of the v3 `while` loop, exactly as `runAuxV1`. -/
def runAuxV3 (c : ConfigV3) : ℕ → StateV3 → Option (List StateV3 × StateV3)
  | 0, _ => none
  | n + 1, s =>
    if loopCondV3 s then (runAuxV3 c n (stepV3 c s)).map (fun p => (s :: p.1, p.2))
    else some ([], s)

/-- The v3 simulation run from its initial state. -/
def runV3 (c : ConfigV3) (fuel : ℕ) : Option (List StateV3 × StateV3) :=
  runAuxV3 c fuel (initV3 c)

/-- The v1 configuration obtained from a v3 configuration by keeping the
engine parameters, gravity and step size (this is the 1-DOF restriction the
reduction property of the specification compares against). -/
def projCfg (c : ConfigV3) : ConfigV1 ℝ :=
  ⟨c.toEngineParams, c.g, c.dt⟩

/-- The vertical-axis projection of a rigid-body state. -/
def projState (s : StateV3) : StateV1 ℝ :=
  ⟨s.t, s.y, s.vy⟩

/-- A v3 configuration with nonzero drag for the torque-sign witness. -/
def cV3W : ConfigV3 :=
  ⟨⟨1, 1/2, 1, 2⟩, 10, 2, 1, 1, 2, 1, 1/100, 0⟩

/-- A v3 configuration with zero drag coefficient and zero initial attitude
angle, for the reduction-property witness. -/
def cV3Z : ConfigV3 :=
  ⟨⟨1, 1/2, 1, 2⟩, 10, 2, 1, 1, 2, 0, 1/100, 0⟩

/-- A concrete v2 configuration for the drag-sign witness. -/
def cV2W : ConfigV2 :=
  ⟨⟨1, 1/2, 1, 2⟩, 10, 2, 2, 1, 1/100⟩

/-- States whose horizontal and rotational components are all zero; the
rigid-body dynamics keeps this set invariant when the drag coefficient is
zero. -/
def zeroAtt (s : StateV3) : Prop :=
  s.x = 0 ∧ s.vx = 0 ∧ s.theta = 0 ∧ s.omega = 0

end RealVariants

/-- An invalid engine configuration: propellant mass (2) exceeds the initial
mass (1), so the derived burnout mass is negative. -/
def eBad : EngineParams ℚ := ⟨1, 2, 1, 0⟩

section ProfileLemmas

variable {K : Type} [LinearOrderedField K]

/-- During the burn the mass formula stays strictly above the burnout mass. -/
lemma burn_mass_gt (e : EngineParams K) (h1 : 0 < e.propellant_mass)
    (h3 : 0 < e.burn_time) {t : K} (ht : t < e.burn_time) :
    burnout_mass e < e.initial_mass - mass_flow_rate e * t := by
  have hr : 0 < mass_flow_rate e := div_pos h1 h3
  have hmul : mass_flow_rate e * t < mass_flow_rate e * e.burn_time :=
    mul_lt_mul_of_pos_left ht hr
  have hmf : mass_flow_rate e * e.burn_time = e.propellant_mass := by
    rw [mass_flow_rate, div_mul_cancel₀ _ (ne_of_gt h3)]
  rw [burnout_mass]
  linarith [hmul, hmf.le, hmf.ge]

/-- The mass returned by the profile never drops below burnout mass. -/
lemma mass_ge_burnout (e : EngineParams K) (h1 : 0 < e.propellant_mass)
    (h3 : 0 < e.burn_time) (t : K) :
    burnout_mass e ≤ (thrust_and_mass e t).2 := by
  rw [thrust_and_mass]
  split
  · exact (burn_mass_gt e h1 h3 (by assumption)).le
  · exact le_refl _

/-- For a valid profile the burnout mass is positive. -/
lemma burnout_mass_pos (e : EngineParams K) (h2 : e.propellant_mass < e.initial_mass) :
    0 < burnout_mass e :=
  sub_pos.2 h2

end ProfileLemmas

/-- C4: for every time `t ≥ 0` the flight profile returns thrust equal to the
constant average thrust and mass `initial_mass - mass_flow_rate * t` when
`t < burn_time`, and thrust `0` with mass equal to the burnout mass
otherwise; it is a total function with no error conditions and no side
effects. -/
theorem c4_profile {K : Type} [LinearOrderedField K] (e : EngineParams K) (t : K)
    (_ht : 0 ≤ t) :
    (t < e.burn_time →
        thrust_and_mass e t = (e.thrust, e.initial_mass - mass_flow_rate e * t)) ∧
      (e.burn_time ≤ t → thrust_and_mass e t = (0, burnout_mass e)) := by
  constructor
  · intro h
    rw [thrust_and_mass, if_pos h]
  · intro h
    rw [thrust_and_mass, if_neg (not_lt.2 h)]

/-- Witness for C4 at the hardcoded v1 engine parameters and `t = 1 < 1.9`. -/
theorem c4_profile_witness :
    (0 : ℚ) ≤ 1 ∧
      thrust_and_mass engV1 1 = (engV1.thrust, engV1.initial_mass - mass_flow_rate engV1 * 1) :=
  ⟨by norm_num, (c4_profile engV1 1 (by norm_num)).1 (by norm_num [engV1])⟩

/-- C9: for every valid engine profile the mass is non-increasing in time, is
exactly the burnout mass from burn_time on, and stays strictly positive. -/
theorem c9_mass_invariant {K : Type} [LinearOrderedField K] (e : EngineParams K)
    (h1 : 0 < e.propellant_mass) (h2 : e.propellant_mass < e.initial_mass)
    (h3 : 0 < e.burn_time) :
    (∀ t1 t2 : K, 0 ≤ t1 → t1 ≤ t2 → (thrust_and_mass e t2).2 ≤ (thrust_and_mass e t1).2) ∧
      (∀ t : K, e.burn_time ≤ t → (thrust_and_mass e t).2 = burnout_mass e) ∧
      (∀ t : K, 0 ≤ t → 0 < (thrust_and_mass e t).2) := by
  refine ⟨?_, ?_, ?_⟩
  · intro t1 t2 _ h12
    by_cases hb2 : t2 < e.burn_time
    · have hb1 : t1 < e.burn_time := lt_of_le_of_lt h12 hb2
      simp only [thrust_and_mass, if_pos hb1, if_pos hb2]
      show e.initial_mass - mass_flow_rate e * t2 ≤ e.initial_mass - mass_flow_rate e * t1
      have hr : 0 < mass_flow_rate e := div_pos h1 h3
      have := mul_le_mul_of_nonneg_left h12 hr.le
      linarith
    · rw [thrust_and_mass, if_neg hb2]
      exact mass_ge_burnout e h1 h3 t1
  · intro t hbt
    rw [thrust_and_mass, if_neg (not_lt.2 hbt)]
  · intro t _
    exact lt_of_lt_of_le (burnout_mass_pos e h2) (mass_ge_burnout e h1 h3 t)

/-- Witness for C9 at the hardcoded v1 engine parameters. -/
theorem c9_mass_invariant_witness :
    ((0 : ℚ) < engV1.propellant_mass ∧ engV1.propellant_mass < engV1.initial_mass ∧
        (0 : ℚ) < engV1.burn_time) ∧
      ((∀ t1 t2 : ℚ, 0 ≤ t1 → t1 ≤ t2 →
          (thrust_and_mass engV1 t2).2 ≤ (thrust_and_mass engV1 t1).2) ∧
        (∀ t : ℚ, engV1.burn_time ≤ t → (thrust_and_mass engV1 t).2 = burnout_mass engV1) ∧
        (∀ t : ℚ, 0 ≤ t → 0 < (thrust_and_mass engV1 t).2)) :=
  ⟨by refine ⟨?_, ?_, ?_⟩ <;> norm_num [engV1],
    c9_mass_invariant engV1 (by norm_num [engV1]) (by norm_num [engV1]) (by norm_num [engV1])⟩

/-- C10: under `0 < propellant_mass < initial_mass` and `0 < burn_time`, the
mass that `a = F_net / m` divides by — in both the 1-DOF step (`accelV1`)
and the rigid-body step (`axV3`, `ayV3`) — is at least the burnout mass,
which is positive, so the acceleration division never divides by zero. -/
theorem c10_divisor_positive {K : Type} [LinearOrderedField K] (c1 : ConfigV1 K)
    (c3 : ConfigV3)
    (h1 : 0 < c1.propellant_mass) (h2 : c1.propellant_mass < c1.initial_mass)
    (h3 : 0 < c1.burn_time)
    (h4 : 0 < c3.propellant_mass) (h5 : c3.propellant_mass < c3.initial_mass)
    (h6 : 0 < c3.burn_time) (s1 : StateV1 K) (s3 : StateV3) :
    (0 < burnout_mass c1.toEngineParams ∧
        burnout_mass c1.toEngineParams ≤ (thrust_and_mass c1.toEngineParams s1.t).2 ∧
        accelV1 c1 s1 = FnetV1 c1 s1 / (thrust_and_mass c1.toEngineParams s1.t).2) ∧
      (0 < burnout_mass c3.toEngineParams ∧
        burnout_mass c3.toEngineParams ≤ (thrust_and_mass c3.toEngineParams s3.t).2 ∧
        axV3 c3 s3 = FnetXV3 c3 s3 / (thrust_and_mass c3.toEngineParams s3.t).2 ∧
        ayV3 c3 s3 = FnetYV3 c3 s3 / (thrust_and_mass c3.toEngineParams s3.t).2) :=
  ⟨⟨burnout_mass_pos _ h2, mass_ge_burnout _ h1 h3 _, rfl⟩,
    ⟨burnout_mass_pos _ h5, mass_ge_burnout _ h4 h6 _, rfl, rfl⟩⟩

/-- Witness for C10 at concrete valid configurations. -/
theorem c10_divisor_positive_witness :
    ((0 : ℚ) < cfgLand.propellant_mass ∧ cfgLand.propellant_mass < cfgLand.initial_mass ∧
        (0 : ℚ) < cfgLand.burn_time ∧ (0 : ℝ) < cV3W.propellant_mass ∧
        cV3W.propellant_mass < cV3W.initial_mass ∧ (0 : ℝ) < cV3W.burn_time) ∧
      ((0 < burnout_mass cfgLand.toEngineParams ∧
          burnout_mass cfgLand.toEngineParams ≤
            (thrust_and_mass cfgLand.toEngineParams (initV1 : StateV1 ℚ).t).2 ∧
          accelV1 cfgLand initV1 =
            FnetV1 cfgLand initV1 /
              (thrust_and_mass cfgLand.toEngineParams (initV1 : StateV1 ℚ).t).2) ∧
        (0 < burnout_mass cV3W.toEngineParams ∧
          burnout_mass cV3W.toEngineParams ≤
            (thrust_and_mass cV3W.toEngineParams (initV3 cV3W).t).2 ∧
          axV3 cV3W (initV3 cV3W) =
            FnetXV3 cV3W (initV3 cV3W) /
              (thrust_and_mass cV3W.toEngineParams (initV3 cV3W).t).2 ∧
          ayV3 cV3W (initV3 cV3W) =
            FnetYV3 cV3W (initV3 cV3W) /
              (thrust_and_mass cV3W.toEngineParams (initV3 cV3W).t).2)) :=
  ⟨⟨by norm_num [cfgLand], by norm_num [cfgLand], by norm_num [cfgLand],
      by norm_num [cV3W], by norm_num [cV3W], by norm_num [cV3W]⟩,
    c10_divisor_positive cfgLand cV3W (by norm_num [cfgLand]) (by norm_num [cfgLand])
      (by norm_num [cfgLand]) (by norm_num [cV3W]) (by norm_num [cV3W]) (by norm_num [cV3W])
      initV1 (initV3 cV3W)⟩

/-- C2: in every variant the integration step updates velocity first and then
uses the freshly updated velocity for the position update; likewise angular
velocity is updated before the attitude angle.  The final conjunct shows at a
concrete input that this differs from the naive explicit update that would
use the pre-step velocity. -/
theorem c2_semi_implicit {K : Type} [LinearOrderedField K] (c1 : ConfigV1 K) (s1 : StateV1 K)
    (c2 : ConfigV2) (s2 : StateV1 ℝ) (c3 : ConfigV3) (s3 : StateV3) :
    ((stepV1 c1 s1).v = s1.v + accelV1 c1 s1 * c1.dt ∧
        (stepV1 c1 s1).h = s1.h + (stepV1 c1 s1).v * c1.dt) ∧
      ((stepV2 c2 s2).v = s2.v + accelV2 c2 s2 * c2.dt ∧
        (stepV2 c2 s2).h = s2.h + (stepV2 c2 s2).v * c2.dt) ∧
      ((stepV3 c3 s3).vx = s3.vx + axV3 c3 s3 * c3.dt ∧
        (stepV3 c3 s3).x = s3.x + (stepV3 c3 s3).vx * c3.dt ∧
        (stepV3 c3 s3).vy = s3.vy + ayV3 c3 s3 * c3.dt ∧
        (stepV3 c3 s3).y = s3.y + (stepV3 c3 s3).vy * c3.dt ∧
        (stepV3 c3 s3).omega = s3.omega + angAccV3 c3 s3 * c3.dt ∧
        (stepV3 c3 s3).theta = s3.theta + (stepV3 c3 s3).omega * c3.dt) ∧
      (stepV1 cfgDrop initV1).h ≠ initV1.h + initV1.v * cfgDrop.dt := by
  refine ⟨⟨rfl, rfl⟩, ⟨rfl, rfl⟩, ⟨rfl, rfl, rfl, rfl, rfl, rfl⟩, ?_⟩
  norm_num [stepV1, accelV1, FnetV1, thrust_and_mass, mass_flow_rate, initV1, cfgDrop]

/-- Witness for C2 at a concrete configuration and the initial state. -/
theorem c2_semi_implicit_witness :
    (stepV1 cfgLand initV1).v = (initV1 : StateV1 ℚ).v + accelV1 cfgLand initV1 * cfgLand.dt ∧
      (stepV1 cfgLand initV1).h = (initV1 : StateV1 ℚ).h + (stepV1 cfgLand initV1).v * cfgLand.dt :=
  (c2_semi_implicit cfgLand initV1 cV2W initV1 cV3W (initV3 cV3W)).1

/-- C8 counterexample: the code performs no configuration validation — the
profile accepts a configuration with propellant mass exceeding the initial
mass and silently returns a negative mass after burnout. -/
theorem c8_counterexample :
    eBad.initial_mass ≤ eBad.propellant_mass ∧ burnout_mass eBad = -1 ∧
      thrust_and_mass eBad 2 = (0, -1) ∧ (-1 : ℚ) < 0 := by
  norm_num [eBad, burnout_mass, thrust_and_mass, mass_flow_rate]

/-- C8 amended: no validation exists; profile construction accepts every
configuration, and one with propellant mass at least the initial mass
silently yields a non-positive mass for all post-burn times instead of an
error. -/
theorem c8_no_validation {K : Type} [LinearOrderedField K] (e : EngineParams K)
    (h : e.initial_mass ≤ e.propellant_mass) (t : K) (ht : e.burn_time ≤ t) :
    thrust_and_mass e t = (0, burnout_mass e) ∧ burnout_mass e ≤ 0 := by
  refine ⟨?_, ?_⟩
  · rw [thrust_and_mass, if_neg (not_lt.2 ht)]
  · rw [burnout_mass]
    linarith

/-- Witness for the amended C8 statement at the invalid configuration. -/
theorem c8_no_validation_witness :
    (eBad.initial_mass ≤ eBad.propellant_mass ∧ eBad.burn_time ≤ (2 : ℚ)) ∧
      (thrust_and_mass eBad 2 = (0, burnout_mass eBad) ∧ burnout_mass eBad ≤ 0) :=
  ⟨⟨by norm_num [eBad], by norm_num [eBad]⟩,
    c8_no_validation eBad (by norm_num [eBad]) 2 (by norm_num [eBad])⟩

section DragLemmas

/-- The derived reference area is non-negative. -/
lemma refAreaV3_nonneg (c : ConfigV3) : 0 ≤ refAreaV3 c :=
  mul_nonneg Real.pi_pos.le (sq_nonneg _)

/-- The v3 drag magnitude is non-negative for non-negative density and drag
coefficient. -/
lemma dragMagV3_nonneg (c : ConfigV3) (hρ : 0 ≤ c.rho) (hCd : 0 ≤ c.C_d) (vx vy : ℝ) :
    0 ≤ dragMagV3 c vx vy := by
  rw [dragMagV3]
  exact mul_nonneg
    (mul_nonneg (mul_nonneg (mul_nonneg (by norm_num) hρ) (sq_nonneg _)) hCd)
    (refAreaV3_nonneg c)

/-- The v2 drag magnitude is non-negative for non-negative density and drag
coefficient. -/
lemma dragMagV2_nonneg (c : ConfigV2) (hρ : 0 ≤ c.rho) (hCd : 0 ≤ c.C_d) (v : ℝ) :
    0 ≤ dragMagV2 c v := by
  rw [dragMagV2]
  exact mul_nonneg
    (mul_nonneg (mul_nonneg (mul_nonneg (by norm_num) hρ) (sq_nonneg _)) hCd)
    (mul_nonneg Real.pi_pos.le (sq_nonneg _))

/-- Above the numerical threshold the drag vector has Euclidean norm equal to
the quadratic drag magnitude. -/
lemma dragForceV3_norm (c : ConfigV3) (hρ : 0 ≤ c.rho) (hCd : 0 ≤ c.C_d) {vx vy : ℝ}
    (h : 1 / 1000000 < speedOf vx vy) :
    speedOf (dragForceV3 c vx vy).1 (dragForceV3 c vx vy).2 = dragMagV3 c vx vy := by
  have hs : 0 < speedOf vx vy := lt_trans (by norm_num) h
  have hne : speedOf vx vy ≠ 0 := ne_of_gt hs
  have hsq : speedOf vx vy ^ 2 = vx ^ 2 + vy ^ 2 := Real.sq_sqrt (by positivity)
  have hD : 0 ≤ dragMagV3 c vx vy := dragMagV3_nonneg c hρ hCd vx vy
  rw [dragForceV3, if_pos h, speedOf]
  have key : (-dragMagV3 c vx vy * (vx / speedOf vx vy)) ^ 2 +
      (-dragMagV3 c vx vy * (vy / speedOf vx vy)) ^ 2 = dragMagV3 c vx vy ^ 2 := by
    have expand : (-dragMagV3 c vx vy * (vx / speedOf vx vy)) ^ 2 +
        (-dragMagV3 c vx vy * (vy / speedOf vx vy)) ^ 2 =
        dragMagV3 c vx vy ^ 2 * (vx ^ 2 + vy ^ 2) / speedOf vx vy ^ 2 := by
      ring
    rw [expand, ← hsq, mul_div_assoc, div_self (pow_ne_zero 2 hne), mul_one]
  rw [key, Real.sqrt_sq hD]

end DragLemmas

/-- C5: the v3 per-step drag force is the quadratic-law magnitude directed
exactly opposite the velocity when the speed exceeds the `1e-6` threshold,
and is exactly `(0, 0)` when the speed is at or below it (so no division by
zero is ever performed and the zero-velocity case is invisible to the
caller); the v2 scalar drag term `-(F_drag * sign v)` likewise has the
quadratic-law magnitude and opposes the velocity, vanishing at `v = 0`. -/
theorem c5_drag_safety (c3 : ConfigV3) (vx vy : ℝ) (c2 : ConfigV2) (v : ℝ)
    (hρ3 : 0 ≤ c3.rho) (hCd3 : 0 ≤ c3.C_d) (hρ2 : 0 ≤ c2.rho) (hCd2 : 0 ≤ c2.C_d) :
    (speedOf vx vy ≤ 1 / 1000000 → dragForceV3 c3 vx vy = (0, 0)) ∧
      (1 / 1000000 < speedOf vx vy →
        dragForceV3 c3 vx vy =
            (-dragMagV3 c3 vx vy * (vx / speedOf vx vy),
              -dragMagV3 c3 vx vy * (vy / speedOf vx vy)) ∧
          speedOf (dragForceV3 c3 vx vy).1 (dragForceV3 c3 vx vy).2 = dragMagV3 c3 vx vy) ∧
      (∀ s : StateV3, FnetXV3 c3 s = TxV3 c3 s + (dragForceV3 c3 s.vx s.vy).1 ∧
        FnetYV3 c3 s = TyV3 c3 s + FgyV3 c3 s + (dragForceV3 c3 s.vx s.vy).2) ∧
      (v = 0 → dragTermV2 c2 v = 0) ∧
      (0 < v → dragTermV2 c2 v = -dragMagV2 c2 v) ∧
      (v < 0 → dragTermV2 c2 v = dragMagV2 c2 v) ∧
      |dragTermV2 c2 v| = dragMagV2 c2 v := by
  refine ⟨?_, ?_, fun s => ⟨rfl, rfl⟩, ?_, ?_, ?_, ?_⟩
  · intro h
    rw [dragForceV3, if_neg (not_lt.2 h)]
  · intro h
    exact ⟨by rw [dragForceV3, if_pos h], dragForceV3_norm c3 hρ3 hCd3 h⟩
  · intro h
    simp [dragTermV2, sgn, h]
  · intro h
    rw [dragTermV2, sgn, if_pos h, mul_one]
  · intro h
    rw [dragTermV2, sgn, if_neg (not_lt.2 h.le), if_pos h]
    ring
  · rcases lt_trichotomy v 0 with h | h | h
    · rw [dragTermV2, sgn, if_neg (not_lt.2 h.le), if_pos h]
      have he : -(dragMagV2 c2 v * -1) = dragMagV2 c2 v := by ring
      rw [he, abs_of_nonneg (dragMagV2_nonneg c2 hρ2 hCd2 v)]
    · subst h
      simp [dragTermV2, sgn, dragMagV2]
    · rw [dragTermV2, sgn, if_pos h, mul_one, abs_neg,
        abs_of_nonneg (dragMagV2_nonneg c2 hρ2 hCd2 v)]

/-- Witness for C5 at a concrete configuration and the velocity `(0, 1)`,
whose speed `1` exceeds the threshold. -/
theorem c5_drag_safety_witness :
    ((0 : ℝ) ≤ cV3W.rho ∧ (0 : ℝ) ≤ cV3W.C_d ∧ (0 : ℝ) ≤ cV2W.rho ∧ (0 : ℝ) ≤ cV2W.C_d ∧
        1 / 1000000 < speedOf 0 1) ∧
      (dragForceV3 cV3W 0 1 =
          (-dragMagV3 cV3W 0 1 * (0 / speedOf 0 1), -dragMagV3 cV3W 0 1 * (1 / speedOf 0 1)) ∧
        speedOf (dragForceV3 cV3W 0 1).1 (dragForceV3 cV3W 0 1).2 = dragMagV3 cV3W 0 1) := by
  have hs : speedOf 0 1 = 1 := by
    rw [speedOf]
    norm_num [Real.sqrt_one]
  refine ⟨⟨by norm_num [cV3W], by norm_num [cV3W], by norm_num [cV2W], by norm_num [cV2W],
    by rw [hs]; norm_num⟩, ?_⟩
  exact (c5_drag_safety cV3W 0 1 cV2W 2 (by norm_num [cV3W]) (by norm_num [cV3W])
    (by norm_num [cV2W]) (by norm_num [cV2W])).2.1 (by rw [hs]; norm_num)

/-- C3: the angle of attack is the attitude angle minus the velocity angle
`arctan2(vx, vy)` from vertical, the restoring torque is
`-(drag magnitude) * (CG-to-CP distance) * sin(angle of attack)` (and this is
exactly the quantity the step divides by the moment of inertia), and for a
positive CG-to-CP distance the torque opposes `sin(angle of attack)`: their
product is non-positive, and when the drag magnitude is positive the torque's
sign is exactly opposite the sign of `sin(angle of attack)`. -/
theorem c3_torque (c : ConfigV3) (theta vx vy : ℝ) :
    angleOfAttack theta vx vy = theta - atan2 vx vy ∧
      torqueV3 c theta vx vy =
        -dragMagV3 c vx vy * c.cg_to_cp_distance * Real.sin (angleOfAttack theta vx vy) ∧
      (∀ s : StateV3, angAccV3 c s = torqueV3 c s.theta s.vx s.vy / c.moment_of_inertia_I) ∧
      (0 < c.cg_to_cp_distance →
        (0 ≤ dragMagV3 c vx vy →
          torqueV3 c theta vx vy * Real.sin (angleOfAttack theta vx vy) ≤ 0) ∧
          (0 < dragMagV3 c vx vy →
            Real.sign (torqueV3 c theta vx vy) =
              -Real.sign (Real.sin (angleOfAttack theta vx vy)))) := by
  refine ⟨rfl, rfl, fun s => rfl, fun hd => ⟨?_, ?_⟩⟩
  · intro hD
    rw [torqueV3]
    set σ := Real.sin (angleOfAttack theta vx vy)
    have he : -dragMagV3 c vx vy * c.cg_to_cp_distance * σ * σ =
        -(dragMagV3 c vx vy * c.cg_to_cp_distance * σ ^ 2) := by ring
    rw [he]
    have hnn : 0 ≤ dragMagV3 c vx vy * c.cg_to_cp_distance * σ ^ 2 :=
      mul_nonneg (mul_nonneg hD hd.le) (sq_nonneg σ)
    linarith
  · intro hD
    rw [torqueV3]
    set σ := Real.sin (angleOfAttack theta vx vy)
    rcases lt_trichotomy σ 0 with h | h | h
    · have haux := mul_pos (mul_pos hD hd) (neg_pos.2 h)
      have hpos : 0 < -dragMagV3 c vx vy * c.cg_to_cp_distance * σ := by nlinarith
      rw [Real.sign_of_pos hpos, Real.sign_of_neg h]
      norm_num
    · rw [h, mul_zero, Real.sign_zero]
      norm_num
    · have haux := mul_pos (mul_pos hD hd) h
      have hneg : -dragMagV3 c vx vy * c.cg_to_cp_distance * σ < 0 := by nlinarith
      rw [Real.sign_of_neg hneg, Real.sign_of_pos h]

/-- Witness for C3: at velocity `(0, 1)` and attitude `π/2` with a concrete
configuration whose drag magnitude evaluates to `π > 0`, the torque's sign is
opposite the sign of `sin(angle of attack)`. -/
theorem c3_torque_witness :
    (0 < cV3W.cg_to_cp_distance ∧ 0 < dragMagV3 cV3W 0 1) ∧
      Real.sign (torqueV3 cV3W (Real.pi / 2) 0 1) =
        -Real.sign (Real.sin (angleOfAttack (Real.pi / 2) 0 1)) := by
  have hs1 : speedOf 0 1 = 1 := by
    rw [speedOf]
    norm_num [Real.sqrt_one]
  have hD : dragMagV3 cV3W 0 1 = Real.pi := by
    rw [dragMagV3, hs1]
    norm_num [refAreaV3, cV3W]
  have hDpos : 0 < dragMagV3 cV3W 0 1 := by
    rw [hD]
    exact Real.pi_pos
  exact ⟨⟨by norm_num [cV3W], hDpos⟩,
    ((c3_torque cV3W (Real.pi / 2) 0 1).2.2.2 (by norm_num [cV3W])).2 hDpos⟩

section LoopLemmas

variable {K : Type} [LinearOrderedField K]

/-- Characterisation of a terminating fueled run: every recorded sample
satisfied the loop condition, the exit state does not, an empty trajectory
means the loop exited at once, and the exit state is one step past the last
recorded sample. -/
lemma runAuxV1_spec (c : ConfigV1 K) :
    ∀ (fuel : ℕ) (s : StateV1 K) (traj : List (StateV1 K)) (exitS : StateV1 K),
      runAuxV1 c fuel s = some (traj, exitS) →
      (∀ x ∈ traj, loopCondV1 x) ∧ ¬ loopCondV1 exitS ∧ (traj = [] → exitS = s) ∧
        ∀ l, traj.getLast? = some l → exitS = stepV1 c l := by
  intro fuel
  induction fuel with
  | zero =>
    intro s traj exitS h
    simp [runAuxV1] at h
  | succ n ih =>
    intro s traj exitS h
    rw [runAuxV1] at h
    by_cases hc : loopCondV1 s
    · rw [if_pos hc] at h
      cases heq : runAuxV1 c n (stepV1 c s) with
      | none =>
        rw [heq] at h
        simp at h
      | some p =>
        obtain ⟨p1, p2⟩ := p
        rw [heq] at h
        simp at h
        obtain ⟨h1, h2⟩ := h
        subst h1
        subst h2
        obtain ⟨IH1, IH2, IH3, IH4⟩ := ih (stepV1 c s) p1 p2 heq
        refine ⟨?_, IH2, ?_, ?_⟩
        · intro x hx
          rcases List.mem_cons.1 hx with hx | hx
          · exact hx ▸ hc
          · exact IH1 x hx
        · intro habs
          exact absurd habs (List.cons_ne_nil s p1)
        · intro l hl
          cases p1 with
          | nil =>
            have hls : s = l := by simpa using hl
            subst hls
            exact IH3 rfl
          | cons a as =>
            rw [List.getLast?_cons_cons] at hl
            exact IH4 l hl
    · rw [if_neg hc] at h
      simp at h
      obtain ⟨h1, h2⟩ := h
      subst h1
      subst h2
      refine ⟨by simp, hc, fun _ => rfl, ?_⟩
      intro l hl
      simp at hl

end LoopLemmas

/-- C1 counterexample: with the zero-thrust configuration the first step
already drives the altitude below zero at `t = 1 > 0`, yet the run's recorded
trajectory is just the initial sample with altitude `0`: the below-ground
state is only the (unrecorded) exit state, so the final recorded sample is
not a sample with altitude `< 0`. -/
theorem c1_counterexample :
    runV1 cfgDrop 3 = some ([initV1], (⟨1, -10, -10⟩ : StateV1 ℚ)) ∧
      ¬ (initV1 : StateV1 ℚ).h < 0 ∧
      (⟨1, -10, -10⟩ : StateV1 ℚ).h < 0 ∧ (⟨1, -10, -10⟩ : StateV1 ℚ).t ≠ 0 := by
  norm_num [runV1, runAuxV1, stepV1, accelV1, FnetV1, thrust_and_mass, mass_flow_rate,
    loopCondV1, initV1, cfgDrop]

/-- C1 amended: when the loop terminates, the step whose post-step altitude
became negative is NOT recorded: every recorded sample has altitude `≥ 0` (or
is the `t = 0` sample), the exit state has altitude `< 0` at a time `≠ 0`, it
does not occur in the trajectory, and it is exactly one integration step past
the final recorded sample (so ground contact lies between the final recorded
time and that time plus `dt`). -/
theorem c1_amended {K : Type} [LinearOrderedField K] (c : ConfigV1 K) (fuel : ℕ)
    (traj : List (StateV1 K)) (exitS : StateV1 K)
    (h : runV1 c fuel = some (traj, exitS)) :
    traj ≠ [] ∧ (∀ x ∈ traj, 0 ≤ x.h ∨ x.t = 0) ∧ exitS.h < 0 ∧ exitS.t ≠ 0 ∧
      exitS ∉ traj ∧ ∀ hne : traj ≠ [], exitS = stepV1 c (traj.getLast hne) := by
  obtain ⟨H1, H2, H3, H4⟩ := runAuxV1_spec c fuel initV1 traj exitS h
  have hexit : exitS.h < 0 ∧ exitS.t ≠ 0 := by
    rw [loopCondV1] at H2
    push_neg at H2
    exact H2
  have hne : traj ≠ [] := by
    intro habs
    exact H2 (by rw [H3 habs]; exact Or.inr rfl)
  refine ⟨hne, fun x hx => H1 x hx, hexit.1, hexit.2, ?_, ?_⟩
  · intro hmem
    exact H2 (H1 exitS hmem)
  · intro hne'
    exact H4 _ (List.getLast?_eq_getLast traj hne')

/-- Witness for the amended C1 statement on the concrete zero-thrust run. -/
theorem c1_amended_witness :
    runV1 cfgDrop 3 = some ([initV1], (⟨1, -10, -10⟩ : StateV1 ℚ)) ∧
      (([initV1] : List (StateV1 ℚ)) ≠ [] ∧
        (∀ x ∈ ([initV1] : List (StateV1 ℚ)), 0 ≤ x.h ∨ x.t = 0) ∧
        (⟨1, -10, -10⟩ : StateV1 ℚ).h < 0 ∧ (⟨1, -10, -10⟩ : StateV1 ℚ).t ≠ 0 ∧
        (⟨1, -10, -10⟩ : StateV1 ℚ) ∉ ([initV1] : List (StateV1 ℚ)) ∧
        ∀ hne : ([initV1] : List (StateV1 ℚ)) ≠ [],
          (⟨1, -10, -10⟩ : StateV1 ℚ) = stepV1 cfgDrop (([initV1] : List (StateV1 ℚ)).getLast hne)) := by
  have h : runV1 cfgDrop 3 = some ([initV1], (⟨1, -10, -10⟩ : StateV1 ℚ)) := by
    norm_num [runV1, runAuxV1, stepV1, accelV1, FnetV1, thrust_and_mass, mass_flow_rate,
      loopCondV1, initV1, cfgDrop]
  exact ⟨h, c1_amended cfgDrop 3 [initV1] ⟨1, -10, -10⟩ h⟩

section TerminationLemmas

variable {K : Type} [LinearOrderedField K]

/-- If the loop condition holds at every iterate, the fueled run never
completes, for any amount of fuel. -/
lemma runAuxV1_none (c : ConfigV1 K) :
    ∀ (fuel : ℕ) (s : StateV1 K), (∀ k, loopCondV1 ((stepV1 c)^[k] s)) →
      runAuxV1 c fuel s = none := by
  intro fuel
  induction fuel with
  | zero =>
    intro s _
    rfl
  | succ n ih =>
    intro s hall
    have h0 : loopCondV1 s := by simpa using hall 0
    rw [runAuxV1, if_pos h0,
      ih (stepV1 c s) (fun k => by simpa [Function.iterate_succ_apply] using hall (k + 1))]
    rfl

/-- In the zero-gravity ascent configuration, altitude and velocity stay
non-negative forever. -/
lemma ascend_nonneg : ∀ n : ℕ, 0 ≤ (iterV1 cfgAscend n).h ∧ 0 ≤ (iterV1 cfgAscend n).v := by
  intro n
  induction n with
  | zero =>
    constructor <;> norm_num [iterV1, initV1]
  | succ n ih =>
    obtain ⟨ih1, ih2⟩ := ih
    have ha : 0 ≤ accelV1 cfgAscend (iterV1 cfgAscend n) := by
      rw [accelV1, FnetV1, thrust_and_mass]
      split <;> norm_num [cfgAscend, mass_flow_rate, burnout_mass]
    have hstep : iterV1 cfgAscend (n + 1) = stepV1 cfgAscend (iterV1 cfgAscend n) := by
      rw [iterV1, Function.iterate_succ_apply']
      rfl
    rw [hstep]
    simp only [stepV1]
    have hdt : cfgAscend.dt = 1 := rfl
    rw [hdt]
    constructor <;> nlinarith [ha, ih1, ih2]

/-- If some iterate violates the loop condition, the run completes for a
sufficiently large fuel, exiting at a state violating the condition. -/
lemma runAuxV1_some (c : ConfigV1 K) :
    ∀ (n : ℕ) (s : StateV1 K), ¬ loopCondV1 ((stepV1 c)^[n] s) →
      ∃ traj exitS, runAuxV1 c (n + 1) s = some (traj, exitS) ∧ ¬ loopCondV1 exitS := by
  intro n
  induction n with
  | zero =>
    intro s h
    rw [Function.iterate_zero_apply] at h
    refine ⟨[], s, ?_, h⟩
    rw [runAuxV1, if_neg h]
  | succ n ih =>
    intro s h
    by_cases hc : loopCondV1 s
    · have h' : ¬ loopCondV1 ((stepV1 c)^[n] (stepV1 c s)) := by
        rwa [Function.iterate_succ_apply] at h
      obtain ⟨traj, exitS, hrun, hexit⟩ := ih (stepV1 c s) h'
      refine ⟨s :: traj, exitS, ?_, hexit⟩
      rw [runAuxV1, if_pos hc, hrun]
      rfl
    · refine ⟨[], s, ?_, hc⟩
      rw [runAuxV1, if_neg hc]

/-- The time coordinate after `n` iterations is `n * dt`. -/
lemma iterV1_t (c : ConfigV1 K) (n : ℕ) : (iterV1 c n).t = (n : K) * c.dt := by
  induction n with
  | zero =>
    simp [iterV1, initV1]
  | succ n ih =>
    have hstep : iterV1 c (n + 1) = stepV1 c (iterV1 c n) := by
      rw [iterV1, Function.iterate_succ_apply']
      rfl
    rw [hstep]
    show (iterV1 c n).t + c.dt = ((n + 1 : ℕ) : K) * c.dt
    rw [ih]
    push_cast
    ring

/-- After burnout the step is uniform deceleration by gravity: the thrust is
zero and the mass cancels, so the velocity decreases by `g * dt`. -/
lemma stepV1_postburn (c : ConfigV1 K) (hbm : burnout_mass c.toEngineParams ≠ 0)
    (s : StateV1 K) (ht : c.burn_time ≤ s.t) :
    stepV1 c s = ⟨s.t + c.dt, s.h + (s.v - c.g * c.dt) * c.dt, s.v - c.g * c.dt⟩ := by
  have htm : thrust_and_mass c.toEngineParams s.t = (0, burnout_mass c.toEngineParams) := by
    rw [thrust_and_mass, if_neg (not_lt.2 ht)]
  have ha : accelV1 c s = -c.g := by
    rw [accelV1, FnetV1, htm]
    show (0 - burnout_mass c.toEngineParams * c.g) / burnout_mass c.toEngineParams = -c.g
    field_simp
    ring
  simp only [stepV1, ha, StateV1.mk.injEq]
  refine ⟨trivial, by ring, by ring⟩

end TerminationLemmas

/-- C7 counterexample: the code has no maximum-steps safety bound — in the
zero-gravity, positive-thrust configuration the loop condition holds at every
iterate and the run never completes, whatever the fuel, reporting nothing. -/
theorem c7_counterexample :
    (¬ ∃ n : ℕ, ¬ loopCondV1 (iterV1 cfgAscend n)) ∧
      ∀ fuel : ℕ, runV1 cfgAscend fuel = none := by
  constructor
  · rintro ⟨n, hn⟩
    exact hn (Or.inl (ascend_nonneg n).1)
  · intro fuel
    exact runAuxV1_none cfgAscend fuel initV1 (fun k => Or.inl (ascend_nonneg k).1)

/-- C7 amended: the loop's only exit is the altitude-based stopping rule and
there is no step bound, so termination is not unconditional; but under
positive gravity, positive step size and positive burnout mass the loop does
terminate, exiting through the altitude rule (a state with altitude `< 0` at
a time `≠ 0`). -/
theorem c7_terminates {K : Type} [LinearOrderedField K] [Archimedean K] (c : ConfigV1 K)
    (hg : 0 < c.g) (hdt : 0 < c.dt) (hbm : 0 < burnout_mass c.toEngineParams) :
    ∃ (fuel : ℕ) (traj : List (StateV1 K)) (exitS : StateV1 K),
      runV1 c fuel = some (traj, exitS) ∧ exitS.h < 0 ∧ exitS.t ≠ 0 := by
  obtain ⟨N, hN⟩ := exists_nat_ge (c.burn_time / c.dt)
  have hNb : c.burn_time ≤ (N : K) * c.dt := by
    rw [div_le_iff₀ hdt] at hN
    exact hN
  have hpost : ∀ n : ℕ, N ≤ n → iterV1 c (n + 1) =
      ⟨(iterV1 c n).t + c.dt, (iterV1 c n).h + ((iterV1 c n).v - c.g * c.dt) * c.dt,
        (iterV1 c n).v - c.g * c.dt⟩ := by
    intro n hn
    have ht : c.burn_time ≤ (iterV1 c n).t := by
      rw [iterV1_t]
      refine le_trans hNb (mul_le_mul_of_nonneg_right ?_ hdt.le)
      exact_mod_cast hn
    have hstep : iterV1 c (n + 1) = stepV1 c (iterV1 c n) := by
      rw [iterV1, Function.iterate_succ_apply']
      rfl
    rw [hstep, stepV1_postburn c (ne_of_gt hbm) _ ht]
  have hv : ∀ k : ℕ, (iterV1 c (N + k)).v = (iterV1 c N).v - (k : K) * (c.g * c.dt) := by
    intro k
    induction k with
    | zero => simp
    | succ k ih =>
      have he : N + (k + 1) = (N + k) + 1 := by omega
      rw [he, hpost (N + k) (Nat.le_add_right N k)]
      show (iterV1 c (N + k)).v - c.g * c.dt = _
      rw [ih]
      push_cast
      ring
  obtain ⟨k₀, hk₀⟩ := exists_nat_ge (((iterV1 c N).v + 1) / (c.g * c.dt))
  have hgdt : 0 < c.g * c.dt := mul_pos hg hdt
  have hk₀' : (iterV1 c N).v + 1 ≤ (k₀ : K) * (c.g * c.dt) := by
    rw [div_le_iff₀ hgdt] at hk₀
    exact hk₀
  have hvneg : ∀ j : ℕ, (iterV1 c (N + (k₀ + j))).v ≤ -1 := by
    intro j
    rw [hv]
    have hmono : (k₀ : K) * (c.g * c.dt) ≤ ((k₀ + j : ℕ) : K) * (c.g * c.dt) := by
      refine mul_le_mul_of_nonneg_right ?_ hgdt.le
      exact_mod_cast Nat.le_add_right k₀ j
    linarith
  have hh : ∀ j : ℕ, (iterV1 c (N + k₀ + j)).h ≤ (iterV1 c (N + k₀)).h - (j : K) * c.dt := by
    intro j
    induction j with
    | zero => simp
    | succ j ih =>
      have he : N + k₀ + (j + 1) = (N + k₀ + j) + 1 := by omega
      rw [he, hpost (N + k₀ + j) (by omega)]
      show (iterV1 c (N + k₀ + j)).h + ((iterV1 c (N + k₀ + j)).v - c.g * c.dt) * c.dt ≤ _
      have hw : (iterV1 c (N + k₀ + j)).v ≤ -1 := by
        have hidx : N + k₀ + j = N + (k₀ + j) := by omega
        rw [hidx]
        exact hvneg j
      have hv2 : (iterV1 c (N + k₀ + j)).v - c.g * c.dt ≤ -1 := by linarith
      have hmul : ((iterV1 c (N + k₀ + j)).v - c.g * c.dt) * c.dt ≤ -1 * c.dt :=
        mul_le_mul_of_nonneg_right hv2 hdt.le
      push_cast
      linarith
  obtain ⟨j₁, hj₁⟩ := exists_nat_ge ((iterV1 c (N + k₀)).h / c.dt)
  have hj₁' : (iterV1 c (N + k₀)).h ≤ (j₁ : K) * c.dt := by
    rw [div_le_iff₀ hdt] at hj₁
    exact hj₁
  have hMh : (iterV1 c (N + k₀ + (j₁ + 1))).h < 0 := by
    have hb := hh (j₁ + 1)
    push_cast at hb
    linarith
  have hMt : (iterV1 c (N + k₀ + (j₁ + 1))).t ≠ 0 := by
    rw [iterV1_t]
    have hMpos : (0 : K) < ((N + k₀ + (j₁ + 1) : ℕ) : K) := by
      exact_mod_cast Nat.pos_of_ne_zero (by omega)
    exact ne_of_gt (mul_pos hMpos hdt)
  have hnotcond : ¬ loopCondV1 (iterV1 c (N + k₀ + (j₁ + 1))) := by
    rintro (h1 | h2)
    · exact absurd h1 (not_le.2 hMh)
    · exact hMt h2
  obtain ⟨traj, exitS, hrun, hexit⟩ := runAuxV1_some c (N + k₀ + (j₁ + 1)) initV1 hnotcond
  rw [loopCondV1] at hexit
  push_neg at hexit
  exact ⟨N + k₀ + (j₁ + 1) + 1, traj, exitS, hrun, hexit.1, hexit.2⟩

/-- Witness for the amended C7 statement at a concrete valid configuration. -/
theorem c7_terminates_witness :
    ((0 : ℚ) < cfgLand.g ∧ (0 : ℚ) < cfgLand.dt ∧ 0 < burnout_mass cfgLand.toEngineParams) ∧
      ∃ (fuel : ℕ) (traj : List (StateV1 ℚ)) (exitS : StateV1 ℚ),
        runV1 cfgLand fuel = some (traj, exitS) ∧ exitS.h < 0 ∧ exitS.t ≠ 0 :=
  ⟨⟨by norm_num [cfgLand], by norm_num [cfgLand], by norm_num [cfgLand, burnout_mass]⟩,
    c7_terminates cfgLand (by norm_num [cfgLand]) (by norm_num [cfgLand])
      (by norm_num [cfgLand, burnout_mass])⟩

section ReductionLemmas

/-- With zero drag coefficient the drag magnitude vanishes. -/
lemma dragMagV3_zero (c : ConfigV3) (hCd : c.C_d = 0) (vx vy : ℝ) :
    dragMagV3 c vx vy = 0 := by
  simp [dragMagV3, hCd]

/-- With zero drag coefficient the drag force vector vanishes in both
branches of the threshold test. -/
lemma dragForceV3_zero (c : ConfigV3) (hCd : c.C_d = 0) (vx vy : ℝ) :
    dragForceV3 c vx vy = (0, 0) := by
  rw [dragForceV3]
  split <;> simp [dragMagV3_zero c hCd]

/-- With zero drag coefficient the restoring torque vanishes. -/
lemma torqueV3_zero (c : ConfigV3) (hCd : c.C_d = 0) (theta vx vy : ℝ) :
    torqueV3 c theta vx vy = 0 := by
  simp [torqueV3, dragMagV3_zero c hCd]

/-- One zero-drag rigid-body step from a zero-attitude state keeps the
attitude zero and projects onto exactly one 1-DOF step. -/
lemma stepC6 (c : ConfigV3) (hCd : c.C_d = 0) (s : StateV3) (hz : zeroAtt s) :
    zeroAtt (stepV3 c s) ∧ projState (stepV3 c s) = stepV1 (projCfg c) (projState s) := by
  obtain ⟨hx, hvx, hθ, hω⟩ := hz
  have hax : axV3 c s = 0 := by
    rw [axV3, FnetXV3, TxV3, hθ, dragForceV3_zero c hCd]
    simp
  have hom : angAccV3 c s = 0 := by
    rw [angAccV3, torqueV3_zero c hCd]
    simp
  have hay : ayV3 c s = accelV1 (projCfg c) (projState s) := by
    have hnum : TyV3 c s + FgyV3 c s + (dragForceV3 c s.vx s.vy).2 =
        FnetV1 (projCfg c) (projState s) := by
      rw [TyV3, FgyV3, dragForceV3_zero c hCd, hθ, Real.cos_zero]
      have hfv : FnetV1 (projCfg c) (projState s) =
          (thrust_and_mass c.toEngineParams s.t).1 -
            (thrust_and_mass c.toEngineParams s.t).2 * c.g := rfl
      rw [hfv]
      show (thrust_and_mass c.toEngineParams s.t).1 * 1 +
          -((thrust_and_mass c.toEngineParams s.t).2 * c.g) + (0 : ℝ) = _
      ring
    rw [ayV3, FnetYV3, hnum, accelV1]
    rfl
  constructor
  · refine ⟨?_, ?_, ?_, ?_⟩
    · show s.x + (s.vx + axV3 c s * c.dt) * c.dt = 0
      rw [hx, hvx, hax]
      ring
    · show s.vx + axV3 c s * c.dt = 0
      rw [hvx, hax]
      ring
    · show s.theta + (s.omega + angAccV3 c s * c.dt) * c.dt = 0
      rw [hθ, hω, hom]
      ring
    · show s.omega + angAccV3 c s * c.dt = 0
      rw [hω, hom]
      ring
  · show (⟨s.t + c.dt, s.y + (s.vy + ayV3 c s * c.dt) * c.dt,
        s.vy + ayV3 c s * c.dt⟩ : StateV1 ℝ) = stepV1 (projCfg c) (projState s)
    rw [hay]
    rfl

/-- At every iterate the zero-drag rigid-body trajectory has zero horizontal
and rotational components and projects onto the 1-DOF iterate. -/
lemma iterC6 (c : ConfigV3) (hCd : c.C_d = 0) (hA : c.initial_angle_deg = 0) :
    ∀ n : ℕ, zeroAtt (iterV3 c n) ∧ projState (iterV3 c n) = iterV1 (projCfg c) n := by
  intro n
  induction n with
  | zero =>
    constructor
    · refine ⟨rfl, rfl, ?_, rfl⟩
      show theta0 c = 0
      rw [theta0, hA]
      ring
    · rfl
  | succ n ih =>
    obtain ⟨ihz, ihp⟩ := ih
    have h3 : iterV3 c (n + 1) = stepV3 c (iterV3 c n) := by
      rw [iterV3, Function.iterate_succ_apply']
      rfl
    have h1 : iterV1 (projCfg c) (n + 1) = stepV1 (projCfg c) (iterV1 (projCfg c) n) := by
      rw [iterV1, Function.iterate_succ_apply']
      rfl
    obtain ⟨hz', hp'⟩ := stepC6 c hCd (iterV3 c n) ihz
    rw [h3, h1, ← ihp]
    exact ⟨hz', hp'⟩

/-- The fueled runs correspond step by step: the 1-DOF run is the vertical
projection of the zero-drag rigid-body run started at a zero-attitude
state. -/
lemma runC6 (c : ConfigV3) (hCd : c.C_d = 0) :
    ∀ (fuel : ℕ) (s : StateV3), zeroAtt s →
      runAuxV1 (projCfg c) fuel (projState s) =
        (runAuxV3 c fuel s).map (fun p => (p.1.map projState, projState p.2)) := by
  intro fuel
  induction fuel with
  | zero =>
    intro s _
    rfl
  | succ n ih =>
    intro s hz
    have hcond : loopCondV1 (projState s) ↔ loopCondV3 s := Iff.rfl
    obtain ⟨hz', hp'⟩ := stepC6 c hCd s hz
    by_cases h3 : loopCondV3 s
    · rw [runAuxV1, runAuxV3, if_pos (hcond.2 h3), if_pos h3]
      have hrec : runAuxV1 (projCfg c) n (stepV1 (projCfg c) (projState s)) =
          (runAuxV3 c n (stepV3 c s)).map (fun p => (p.1.map projState, projState p.2)) := by
        rw [← hp']
        exact ih (stepV3 c s) hz'
      rw [hrec]
      cases runAuxV3 c n (stepV3 c s) with
      | none => rfl
      | some p => rfl
    · rw [runAuxV1, runAuxV3, if_neg (fun hh => h3 (hcond.1 hh)), if_neg h3]
      rfl

end ReductionLemmas

/-- C6: for every configuration with zero drag coefficient and zero initial
attitude angle, the rigid-body engine's horizontal position, horizontal
velocity, attitude angle and angular velocity are identically zero at every
step, its time, altitude and vertical velocity agree exactly with the 1-DOF
point-mass engine at every step, and the recorded runs coincide under the
vertical projection. -/
theorem c6_reduction (c : ConfigV3) (hCd : c.C_d = 0) (hA : c.initial_angle_deg = 0) :
    (∀ n : ℕ,
        (iterV3 c n).x = 0 ∧ (iterV3 c n).vx = 0 ∧ (iterV3 c n).theta = 0 ∧
          (iterV3 c n).omega = 0 ∧ (iterV3 c n).t = (iterV1 (projCfg c) n).t ∧
          (iterV3 c n).y = (iterV1 (projCfg c) n).h ∧
          (iterV3 c n).vy = (iterV1 (projCfg c) n).v) ∧
      ∀ fuel : ℕ, runV1 (projCfg c) fuel =
        (runV3 c fuel).map (fun p => (p.1.map projState, projState p.2)) := by
  constructor
  · intro n
    obtain ⟨⟨hx, hvx, hθ, hω⟩, hp⟩ := iterC6 c hCd hA n
    exact ⟨hx, hvx, hθ, hω, congrArg StateV1.t hp, congrArg StateV1.h hp,
      congrArg StateV1.v hp⟩
  · intro fuel
    have hz : zeroAtt (initV3 c) := by
      refine ⟨rfl, rfl, ?_, rfl⟩
      show theta0 c = 0
      rw [theta0, hA]
      ring
    have hinit : projState (initV3 c) = initV1 := rfl
    have hrun := runC6 c hCd fuel (initV3 c) hz
    rw [hinit] at hrun
    exact hrun

/-- Witness for C6 at a concrete zero-drag, zero-attitude configuration. -/
theorem c6_reduction_witness :
    (cV3Z.C_d = 0 ∧ cV3Z.initial_angle_deg = 0) ∧
      ((∀ n : ℕ,
          (iterV3 cV3Z n).x = 0 ∧ (iterV3 cV3Z n).vx = 0 ∧ (iterV3 cV3Z n).theta = 0 ∧
            (iterV3 cV3Z n).omega = 0 ∧ (iterV3 cV3Z n).t = (iterV1 (projCfg cV3Z) n).t ∧
            (iterV3 cV3Z n).y = (iterV1 (projCfg cV3Z) n).h ∧
            (iterV3 cV3Z n).vy = (iterV1 (projCfg cV3Z) n).v) ∧
        ∀ fuel : ℕ, runV1 (projCfg cV3Z) fuel =
          (runV3 cV3Z fuel).map (fun p => (p.1.map projState, projState p.2))) :=
  ⟨⟨rfl, rfl⟩, c6_reduction cV3Z rfl rfl⟩

end RocketSim
